import Mathlib

/-!
# libcap: syscall tables of package `cap` and the privileged listener of program `web`

Shallow embedding of

* `cap/syscalls.go`: the two syscall tables `multisc` and `singlesc`;
* `examples/web.go`: the start-up guard `init`, the method `listen` with its
  deferred restore, and `main`.

Calls that leave the two files (package `psx`, package `syscall`, the `Set`
methods of package `cap`, `net`, `net/http`, `log`) are not interpreted: each
call site has an outcome, supplied by an environment record, and every executed
call is appended to a trace in program order.
-/

namespace Libcap

/-! ## `cap/syscalls.go` -/

namespace Cap

/-- Which OS threads a syscall entry point runs the call on: `psx.Syscall3` and
`psx.Syscall6` run it on every thread of the process, `syscall.RawSyscall` and
`syscall.RawSyscall6` on the calling thread only. -/
inductive Scope
  | allThreads
  | callingThread
  deriving DecidableEq, Repr

/-- The functions a three-argument entry of a `syscaller` is initialised with
in `syscalls.go`. -/
inductive Fn3
  | psxSyscall3
  | rawSyscall
  deriving DecidableEq, Repr

/-- The functions a six-argument entry of a `syscaller` is initialised with in
`syscalls.go`. -/
inductive Fn6
  | psxSyscall6
  | rawSyscall6
  deriving DecidableEq, Repr

/-- Modelled from the spec: the struct type `syscaller` is declared outside
`syscalls.go`; its four fields are the ones the two composite literals of
`syscalls.go` initialise, `w3`/`w6` for writes and `r3`/`r6` for reads. -/
structure syscaller where
  w3 : Fn3
  w6 : Fn6
  r3 : Fn3
  r6 : Fn6
  deriving DecidableEq, Repr

/-- `multisc`: one kernel security state for all OS threads. -/
def multisc : syscaller :=
  { w3 := Fn3.psxSyscall3
    w6 := Fn6.psxSyscall6
    r3 := Fn3.rawSyscall
    r6 := Fn6.rawSyscall6 }

/-- `singlesc`: the single threaded implementation. -/
def singlesc : syscaller :=
  { w3 := Fn3.rawSyscall
    w6 := Fn6.rawSyscall6
    r3 := Fn3.rawSyscall
    r6 := Fn6.rawSyscall6 }

/-- A syscall as it is handed to the operating system: where it runs, the trap
number and the argument words. -/
structure Issued where
  scope : Scope
  trap : Nat
  args : List Nat
  deriving DecidableEq, Repr

/-- The package a three-argument entry belongs to decides the scope. -/
def Fn3.scope : Fn3 → Scope
  | Fn3.psxSyscall3 => Scope.allThreads
  | Fn3.rawSyscall => Scope.callingThread

/-- The package a six-argument entry belongs to decides the scope. -/
def Fn6.scope : Fn6 → Scope
  | Fn6.psxSyscall6 => Scope.allThreads
  | Fn6.rawSyscall6 => Scope.callingThread

/-- Calling a three-argument entry with `(trap, a1, a2, a3)`. -/
def Fn3.call (f : Fn3) (trap a1 a2 a3 : Nat) : Issued :=
  { scope := f.scope, trap := trap, args := [a1, a2, a3] }

/-- Calling a six-argument entry with `(trap, a1, ..., a6)`. -/
def Fn6.call (f : Fn6) (trap a1 a2 a3 a4 a5 a6 : Nat) : Issued :=
  { scope := f.scope, trap := trap, args := [a1, a2, a3, a4, a5, a6] }

/-- An entry is a psx broadcast entry when it runs on all threads. -/
def syscaller.hasBroadcastEntry (sc : syscaller) : Bool :=
  decide (sc.w3.scope = Scope.allThreads) || decide (sc.w6.scope = Scope.allThreads) ||
  decide (sc.r3.scope = Scope.allThreads) || decide (sc.r6.scope = Scope.allThreads)

end Cap

/-! ## `examples/web.go` -/

namespace Web

/-- A Go `error` value that is not nil, identified by its message; a nil-able
`error` is an `Option GoError`. `errors.New(err.Error())` builds an error with
the message of `err`, so it is the identity on messages. -/
abbrev GoError := String

/-- A `net.Listener` that is not nil; a nil-able one is an `Option Listener`. -/
structure Listener where
  fd : Nat
  deriving DecidableEq, Repr

/-- Modelled from the spec: the capability set type `cap.Set` is declared
outside the two source files. Following the data model of the spec it groups
one bit set per flag (Effective, Permitted, Inheritable); a bit set is a
natural number read as a bit mask, one bit per capability. -/
structure CapSet where
  effective : Nat
  permitted : Nat
  inheritable : Nat
  deriving DecidableEq, Repr

/-- Modelled from the spec: no bit is set under any flag. -/
def CapSet.isEmpty (c : CapSet) : Bool :=
  c.effective == 0 && c.permitted == 0 && c.inheritable == 0

/-- Modelled from the spec: `setFlag(Effective, true, cap)` on a snapshot. -/
def CapSet.raiseEffective (c : CapSet) (bit : Nat) : CapSet :=
  { c with effective := c.effective ||| (1 <<< bit) }

/-- Modelled from the spec: `getFlag(Permitted, cap)` on a snapshot. -/
def CapSet.getPermitted (c : CapSet) (bit : Nat) : Bool :=
  c.permitted.testBit bit

/-- Bit position of `cap.NET_BIND_SERVICE` (Linux `CAP_NET_BIND_SERVICE`). -/
def NET_BIND_SERVICE : Nat := 10

/-- Bit position of `cap.SETPCAP` (Linux `CAP_SETPCAP`). -/
def SETPCAP : Nat := 8

/-- The two capability sets `listen` calls `SetProc` on. -/
inductive Receiver
  | original
  | duplicate
  deriving DecidableEq, Repr

/-- The calls of `web.go` that leave the file, one constructor per call site
(the two `net.Listen` sites and the `log.Fatal`/`log.Fatalf` sites are not told
apart). -/
inductive Event
  | netListen
  | modeNoPrivSet
  | getProc
  | dup
  | getFlag
  | setFlag
  | setProc (r : Receiver)
  | logFatal
  | httpServe
  | lisClose
  deriving DecidableEq, Repr

/-- How a function ends: it returns a value to its caller, or the process has
been terminated inside it (`log.Fatal` and `log.Fatalf` call `os.Exit(1)`;
deferred functions do not run and nothing is handed to the caller). -/
inductive Exec (α : Type)
  | returned (v : α)
  | exited
  deriving DecidableEq, Repr

/-- The calls made, in program order, and how the function ended. -/
structure Run (α : Type) where
  trace : List Event
  result : Exec α

/-- The two results of `listen`: `(net.Listener, error)`. -/
abbrev ListenResult := Option Listener × Option GoError

/-- The flags and the outcome of every call that leaves `web.go`. Each call
site is executed at most once per run, so one outcome per site describes every
behaviour of the callees. -/
structure Env where
  /-- Value of `*skipPrivilegeCheck`. -/
  skip : Bool
  /-- Value of `*port`. -/
  port : Int
  /-- The set `cap.GetProc()` returns. -/
  original : CapSet
  /-- Results of `net.Listen(network, address)`. -/
  netListen : Option Listener × Option GoError
  /-- Result of `cap.ModeNoPriv.Set()`. -/
  modeNoPrivSet : Option GoError
  /-- The error result of `originalCapabilities.Dup()`. -/
  dup : Option GoError
  /-- Results `(on, err)` of `dupCapabilities.GetFlag(cap.Permitted, cap.NET_BIND_SERVICE)`. -/
  getFlag : Bool × Option GoError
  /-- Result of `dupCapabilities.SetFlag(cap.Effective, true, cap.NET_BIND_SERVICE)`. -/
  setFlag : Option GoError
  /-- Result of `dupCapabilities.SetProc()`. -/
  dupSetProc : Option GoError
  /-- Result of the deferred `originalCapabilities.SetProc()`. -/
  origSetProc : Option GoError
  /-- Rendering of `cap.NET_BIND_SERVICE` under `%q`. -/
  wantText : String
  /-- Rendering of `dupCapabilities` under `%q`. -/
  haveText : String
  /-- Result of `http.Serve(lis, h)`. -/
  httpServe : Option GoError
  /-- Result of `lis.Close()`. -/
  lisClose : Option GoError

/-- The message `fmt.Sprintf` builds in `listen`. -/
def insufficientPrivilege (env : Env) : GoError :=
  "insufficient privilege to bind to low ports - want " ++ env.wantText ++
    ", have " ++ env.haveText

/-- The start-up guard `init`, on the four ids it reads. -/
def init (uid euid gid egid : Int) : Run Unit :=
  if uid ≠ euid ∨ gid ≠ egid then
    ⟨[Event.logFatal], Exec.exited⟩
  else if uid = 0 then
    ⟨[Event.logFatal], Exec.exited⟩
  else
    ⟨[], Exec.returned ()⟩

/-- The statements of `listen` that follow the `defer`, up to and including the
`return` statement that ends them: the calls made and the values returned. -/
def listenBody (env : Env) : List Event × ListenResult :=
  match env.dup with
  | some err => ([Event.dup], (none, some err))
  | none =>
    match env.getFlag with
    | (false, some err) => ([Event.dup, Event.getFlag], (none, some err))
    | (false, none) => ([Event.dup, Event.getFlag], (none, some (insufficientPrivilege env)))
    | (true, _) =>
      match env.setFlag with
      | some err => ([Event.dup, Event.getFlag, Event.setFlag], (none, some err))
      | none =>
        match env.dupSetProc with
        | some err =>
          ([Event.dup, Event.getFlag, Event.setFlag, Event.setProc Receiver.duplicate],
            (none, some err))
        | none =>
          ([Event.dup, Event.getFlag, Event.setFlag, Event.setProc Receiver.duplicate,
            Event.netListen], env.netListen)

/-- The deferred function of `listen`: the calls it makes and whether it ends
the process. -/
def restore (env : Env) : Run Unit :=
  match env.origSetProc with
  | some _ => ⟨[Event.setProc Receiver.original, Event.logFatal], Exec.exited⟩
  | none => ⟨[Event.setProc Receiver.original], Exec.returned ()⟩

/-- The method `listen`. With the skip flag on there is no `defer`; otherwise
the deferred function runs after the `return` statement of the body has
evaluated its operands and before control goes back to the caller. -/
def listen (env : Env) : Run ListenResult :=
  if env.skip = true then
    match env.netListen with
    | (_, some err) => ⟨[Event.netListen], Exec.returned (none, some err)⟩
    | (l, none) =>
      match env.modeNoPrivSet with
      | some err => ⟨[Event.netListen, Event.modeNoPrivSet], Exec.returned (none, some err)⟩
      | none => ⟨[Event.netListen, Event.modeNoPrivSet], Exec.returned (l, none)⟩
  else
    let body := listenBody env
    let deferred := restore env
    match deferred.result with
    | Exec.exited => ⟨Event.getProc :: body.1 ++ deferred.trace, Exec.exited⟩
    | Exec.returned _ => ⟨Event.getProc :: body.1 ++ deferred.trace, Exec.returned body.2⟩

/-- The function `main`, after `flag.Parse()`. -/
def main (env : Env) : Run Unit :=
  if env.port = 0 then
    ⟨[Event.logFatal], Exec.exited⟩
  else
    let r := listen env
    match r.result with
    | Exec.exited => ⟨r.trace, Exec.exited⟩
    | Exec.returned (_, some _) => ⟨r.trace ++ [Event.logFatal], Exec.exited⟩
    | Exec.returned (lis, none) =>
      match env.httpServe with
      | some _ => ⟨r.trace ++ [Event.httpServe, Event.logFatal], Exec.exited⟩
      | none =>
        match lis with
        | none => ⟨r.trace ++ [Event.httpServe], Exec.returned ()⟩
        | some _ =>
          match env.lisClose with
          | some _ => ⟨r.trace ++ [Event.httpServe, Event.lisClose, Event.logFatal], Exec.exited⟩
          | none => ⟨r.trace ++ [Event.httpServe, Event.lisClose], Exec.returned ()⟩

/-- The set a `SetProc` call of `listen` commits: the original snapshot, or its
duplicate after `SetFlag` raised the effective bit. -/
def Env.committed (env : Env) : Receiver → CapSet
  | Receiver.original => env.original
  | Receiver.duplicate => env.original.raiseEffective NET_BIND_SERVICE

/-- The error result of the `SetProc` call on a receiver. -/
def Env.setProcResult (env : Env) : Receiver → Option GoError
  | Receiver.original => env.origSetProc
  | Receiver.duplicate => env.dupSetProc

/-- Whether a call drops all capabilities: a successful `cap.ModeNoPriv.Set()`
or a successful commit of an empty set. -/
def dropsAllCapabilities (env : Env) : Event → Bool
  | Event.modeNoPrivSet => env.modeNoPrivSet.isNone
  | Event.setProc r => (env.setProcResult r).isNone && (env.committed r).isEmpty
  | _ => false

/-- The steps of `listen` that must go well before `net.Listen` is reached:
`Dup` succeeded, `GetFlag` reported true, `SetFlag` and the duplicate's
`SetProc` succeeded. -/
def stepsSucceed (env : Env) : Prop :=
  env.dup = none ∧ env.getFlag.1 = true ∧ env.setFlag = none ∧ env.dupSetProc = none

instance (env : Env) : Decidable (stepsSucceed env) := by
  unfold stepsSucceed; infer_instance

/-! ### Concrete environments -/

/-- The set-up of the package comment, `setcap cap_setpcap,cap_net_bind_service=p`,
run as `./web --port=80`: both bits permitted, nothing effective or
inheritable, every call succeeds and `http.Serve` ends with an error when the
listener is closed. -/
def envBindLowPort : Env :=
  { skip := false
    port := 80
    original := { effective := 0, permitted := 1 <<< SETPCAP ||| 1 <<< NET_BIND_SERVICE,
                  inheritable := 0 }
    netListen := (some { fd := 3 }, none)
    modeNoPrivSet := none
    dup := none
    getFlag := (true, none)
    setFlag := none
    dupSetProc := none
    origSetProc := none
    wantText := "cap_net_bind_service"
    haveText := "cap_setpcap,cap_net_bind_service=p"
    httpServe := some "use of closed network connection"
    lisClose := none }

/-- As `envBindLowPort`, but the restoring `SetProc` of the original set fails. -/
def envRestoreFails : Env :=
  { envBindLowPort with origSetProc := some "operation not permitted" }

/-- As `envBindLowPort`, but `Dup` fails and so does the restoring `SetProc`. -/
def envDupAndRestoreFail : Env :=
  { envBindLowPort with dup := some "bad capability set"
                        origSetProc := some "operation not permitted" }

/-- As `envBindLowPort`, but `Dup` fails. -/
def envDupFails : Env :=
  { envBindLowPort with dup := some "bad capability set" }

/-- As `envBindLowPort`, but `GetFlag` answers true together with an error. -/
def envFlagOnWithError : Env :=
  { envBindLowPort with getFlag := (true, some "bad capability set") }

/-- As `envBindLowPort`, but `GetFlag` answers false together with an error. -/
def envFlagOffWithError : Env :=
  { envBindLowPort with getFlag := (false, some "bad capability set") }

/-- As `envFlagOffWithError`, and the restoring `SetProc` fails too. -/
def envFlagOffRestoreFails : Env :=
  { envBindLowPort with getFlag := (false, some "bad capability set")
                        origSetProc := some "operation not permitted" }

end Web

/-! ## Theorems about `cap/syscalls.go` -/

namespace Cap

/-- C1: in the broadcast-mode table `multisc` both write entries are the psx
all-threads syscalls of matching arity: `w3` is `psx.Syscall3` and `w6` is
`psx.Syscall6`; a write issued through either entry runs on all threads. -/
theorem multisc_writes_are_psx :
    multisc.w3 = Fn3.psxSyscall3 ∧ multisc.w6 = Fn6.psxSyscall6 ∧
    (∀ trap a1 a2 a3 : Nat,
      (multisc.w3.call trap a1 a2 a3).scope = Scope.allThreads) ∧
    (∀ trap a1 a2 a3 a4 a5 a6 : Nat,
      (multisc.w6.call trap a1 a2 a3 a4 a5 a6).scope = Scope.allThreads) :=
  ⟨rfl, rfl, fun _ _ _ _ => rfl, fun _ _ _ _ _ _ _ => rfl⟩

/-- C2: for both arities the read entry of `multisc` is the raw single-thread
syscall and equals the read entry of `singlesc`; hence for every syscall number
and arguments a read is issued identically in both modes, on the calling
thread. -/
theorem multisc_reads_equal_singlesc_reads :
    multisc.r3 = Fn3.rawSyscall ∧ singlesc.r3 = Fn3.rawSyscall ∧
    multisc.r6 = Fn6.rawSyscall6 ∧ singlesc.r6 = Fn6.rawSyscall6 ∧
    multisc.r3 = singlesc.r3 ∧ multisc.r6 = singlesc.r6 ∧
    (∀ trap a1 a2 a3 : Nat,
      multisc.r3.call trap a1 a2 a3 = singlesc.r3.call trap a1 a2 a3 ∧
      (multisc.r3.call trap a1 a2 a3).scope = Scope.callingThread) ∧
    (∀ trap a1 a2 a3 a4 a5 a6 : Nat,
      multisc.r6.call trap a1 a2 a3 a4 a5 a6 = singlesc.r6.call trap a1 a2 a3 a4 a5 a6 ∧
      (multisc.r6.call trap a1 a2 a3 a4 a5 a6).scope = Scope.callingThread) :=
  ⟨rfl, rfl, rfl, rfl, rfl, rfl, fun _ _ _ _ => ⟨rfl, rfl⟩,
    fun _ _ _ _ _ _ _ => ⟨rfl, rfl⟩⟩

/-- C3: in `singlesc` every entry, read or write, is a raw syscall on the
calling thread: `w3 = r3 = syscall.RawSyscall` and `w6 = r6 =
syscall.RawSyscall6`, a write is issued exactly as a read of the same arity is,
and no entry of the table is a psx broadcast entry. -/
theorem singlesc_all_raw :
    singlesc.w3 = Fn3.rawSyscall ∧ singlesc.r3 = Fn3.rawSyscall ∧
    singlesc.w6 = Fn6.rawSyscall6 ∧ singlesc.r6 = Fn6.rawSyscall6 ∧
    (∀ trap a1 a2 a3 : Nat,
      singlesc.w3.call trap a1 a2 a3 = singlesc.r3.call trap a1 a2 a3) ∧
    (∀ trap a1 a2 a3 a4 a5 a6 : Nat,
      singlesc.w6.call trap a1 a2 a3 a4 a5 a6 = singlesc.r6.call trap a1 a2 a3 a4 a5 a6) ∧
    singlesc.hasBroadcastEntry = false ∧
    singlesc.w3 ≠ Fn3.psxSyscall3 ∧ singlesc.r3 ≠ Fn3.psxSyscall3 ∧
    singlesc.w6 ≠ Fn6.psxSyscall6 ∧ singlesc.r6 ≠ Fn6.psxSyscall6 :=
  ⟨rfl, rfl, rfl, rfl, fun _ _ _ _ => rfl, fun _ _ _ _ _ _ _ => rfl, by decide,
    by decide, by decide, by decide, by decide⟩

end Cap

/-! ## Theorems about `examples/web.go` -/

namespace Web

/-- C6: for all values of uid, euid, gid and egid the guard `init` lets the
program continue if and only if uid = euid, gid = egid and uid is not 0; in
every other case it aborts the process through a fatal log call. No process
whose real or effective uid is 0 passes the guard. -/
theorem init_continues_iff (uid euid gid egid : Int) :
    ((init uid euid gid egid).result = Exec.returned () ↔
      (uid = euid ∧ gid = egid ∧ uid ≠ 0)) ∧
    ((init uid euid gid egid).result = Exec.exited ∧
        (init uid euid gid egid).trace = [Event.logFatal] ↔
      ¬ (uid = euid ∧ gid = egid ∧ uid ≠ 0)) ∧
    ((uid = 0 ∨ euid = 0) → (init uid euid gid egid).result = Exec.exited) := by
  unfold init
  by_cases h1 : uid = euid
  · by_cases h2 : gid = egid
    · by_cases h3 : uid = 0
      · subst h1 h2 h3; simp
      · have h4 : ¬ euid = 0 := fun h => h3 (h1.trans h)
        simp [h1, h2, h3, h4]
    · simp [h1, h2]
  · simp [h1]

/-- The guard at concrete ids: an ordinary user (uid 1000, gid 100) passes, and
root does not. -/
theorem init_continues_iff_witness :
    (init 1000 1000 100 100).result = Exec.returned () ∧
    (init 0 0 0 0).result = Exec.exited :=
  ⟨(init_continues_iff 1000 1000 100 100).1.2 ⟨rfl, rfl, by decide⟩,
    (init_continues_iff 0 0 0 0).2.2 (Or.inl rfl)⟩

/-- Every call the body of `listen` makes is one of `Dup`, `GetFlag`, `SetFlag`,
the duplicate's `SetProc` and `net.Listen`. -/
theorem listenBody_trace_mem (env : Env) (e : Event) (h : e ∈ (listenBody env).1) :
    e = Event.dup ∨ e = Event.getFlag ∨ e = Event.setFlag ∨
      e = Event.setProc Receiver.duplicate ∨ e = Event.netListen := by
  obtain ⟨skip, port, orig, nl, mnp, dup, ⟨flagOn, gerr⟩, sf, dsp, osp, wt, ht, hs, lc⟩ := env
  cases dup <;> cases flagOn <;> cases gerr <;> cases sf <;> cases dsp <;>
    simp [listenBody] at h ⊢ <;> aesop

/-- With the skip flag off and a restore that succeeds, `listen` makes the calls
of its body between `GetProc` and the restoring `SetProc`, and returns what the
body computed. -/
theorem listen_noskip_restored (env : Env) (h : env.skip = false)
    (hr : env.origSetProc = none) :
    (listen env).trace =
        Event.getProc :: (listenBody env).1 ++ [Event.setProc Receiver.original] ∧
      (listen env).result = Exec.returned (listenBody env).2 := by
  simp [listen, restore, h, hr]

/-- With the skip flag off and a restore that fails, `listen` ends the process
after the restoring `SetProc`. -/
theorem listen_noskip_fatal (env : Env) (h : env.skip = false) (err : GoError)
    (hr : env.origSetProc = some err) :
    (listen env).trace =
        Event.getProc :: (listenBody env).1 ++
          [Event.setProc Receiver.original, Event.logFatal] ∧
      (listen env).result = Exec.exited := by
  simp [listen, restore, h, hr]

/-- C4: for every invocation of `listen` with the skip flag off and every
outcome of `Dup`, `GetFlag`, `SetFlag`, the duplicate's `SetProc` and
`net.Listen`, the original set's `SetProc` is called exactly once; every one of
those operations that was executed comes before it, only the fatal log call can
follow it, and when `listen` returns to its caller nothing follows it. -/
theorem listen_restores_exactly_once (env : Env) (h : env.skip = false) :
    (listen env).trace.count (Event.setProc Receiver.original) = 1 ∧
    ∃ before after : List Event,
      (listen env).trace = before ++ Event.setProc Receiver.original :: after ∧
      Event.setProc Receiver.original ∉ before ∧
      (∀ e ∈ after, e = Event.logFatal) ∧
      (∀ e ∈ (listen env).trace,
        (e = Event.dup ∨ e = Event.getFlag ∨ e = Event.setFlag ∨
          e = Event.setProc Receiver.duplicate ∨ e = Event.netListen) → e ∈ before) ∧
      (∀ v, (listen env).result = Exec.returned v → after = []) := by
  have hnot : Event.setProc Receiver.original ∉ (listenBody env).1 := by
    intro hm
    rcases listenBody_trace_mem env _ hm with h1 | h1 | h1 | h1 | h1 <;> simp at h1
  have hcount : (listenBody env).1.count (Event.setProc Receiver.original) = 0 :=
    List.count_eq_zero.mpr hnot
  cases hr : env.origSetProc with
  | none =>
    obtain ⟨ht, hres⟩ := listen_noskip_restored env h hr
    refine ⟨?_, Event.getProc :: (listenBody env).1, [], ?_, ?_, ?_, ?_, ?_⟩
    · rw [ht]; simp [List.count_cons, hcount]
    · rw [ht]
    · simpa using hnot
    · simp
    · intro e he hop
      rw [ht] at he
      simp at he
      rcases he with he | he | he
      · simp [he]
      · simp [he]
      · subst he; rcases hop with h1 | h1 | h1 | h1 | h1 <;> simp at h1
    · intro _ _; rfl
  | some err =>
    obtain ⟨ht, hres⟩ := listen_noskip_fatal env h err hr
    refine ⟨?_, Event.getProc :: (listenBody env).1, [Event.logFatal], ?_, ?_, ?_, ?_, ?_⟩
    · rw [ht]; simp [List.count_cons, hcount]
    · rw [ht]
    · simpa using hnot
    · simp
    · intro e he hop
      rw [ht] at he
      simp at he
      rcases he with he | he | he | he
      · simp [he]
      · simp [he]
      · subst he; rcases hop with h1 | h1 | h1 | h1 | h1 <;> simp at h1
      · subst he; rcases hop with h1 | h1 | h1 | h1 | h1 <;> simp at h1
    · intro v hv; rw [hres] at hv; cases hv

/-- C5: for every invocation of `listen` with the skip flag off, if the deferred
`SetProc` of the original set returns an error the process is terminated by the
fatal log call, the last call made, and `listen` hands nothing back to its
caller; if it returns nil, no fatal log call is made and the result of `listen`
is exactly the result computed by its body. -/
theorem listen_restore_failure_is_fatal (env : Env) (h : env.skip = false) :
    (env.origSetProc ≠ none →
      (listen env).result = Exec.exited ∧
      (listen env).trace.getLast? = some Event.logFatal ∧
      ∀ v, (listen env).result ≠ Exec.returned v) ∧
    (env.origSetProc = none →
      (listen env).result = Exec.returned (listenBody env).2 ∧
      Event.logFatal ∉ (listen env).trace) := by
  constructor
  · intro hne
    obtain ⟨err, hr⟩ := Option.ne_none_iff_exists'.mp hne
    obtain ⟨ht, hres⟩ := listen_noskip_fatal env h err hr
    refine ⟨hres, ?_, ?_⟩
    · rw [ht]
      rw [show Event.getProc :: (listenBody env).1 ++
            [Event.setProc Receiver.original, Event.logFatal] =
          (Event.getProc :: (listenBody env).1 ++ [Event.setProc Receiver.original]) ++
            [Event.logFatal] by simp]
      exact List.getLast?_concat _
    · intro v hv; rw [hres] at hv; cases hv
  · intro hr
    obtain ⟨ht, hres⟩ := listen_noskip_restored env h hr
    refine ⟨hres, ?_⟩
    rw [ht]
    intro hm
    simp at hm
    rcases listenBody_trace_mem env _ hm with h1 | h1 | h1 | h1 | h1 <;> simp at h1

/-- C4 at `envBindLowPort`: the restoring `SetProc` occurs exactly once. -/
theorem listen_restores_exactly_once_witness :
    envBindLowPort.skip = false ∧
    (listen envBindLowPort).trace.count (Event.setProc Receiver.original) = 1 :=
  ⟨rfl, (listen_restores_exactly_once envBindLowPort rfl).1⟩

/-- C5 at `envRestoreFails`: the restore fails and `listen` ends the process. -/
theorem listen_restore_failure_is_fatal_witness :
    envRestoreFails.skip = false ∧ envRestoreFails.origSetProc ≠ none ∧
    (listen envRestoreFails).result = Exec.exited :=
  ⟨rfl, by decide,
    ((listen_restore_failure_is_fatal envRestoreFails rfl).1 (by decide)).1⟩

/-- The calls of the body when every step before `net.Listen` goes well. -/
theorem listenBody_of_stepsSucceed (env : Env) (h : stepsSucceed env) :
    listenBody env =
      ([Event.dup, Event.getFlag, Event.setFlag, Event.setProc Receiver.duplicate,
        Event.netListen], env.netListen) := by
  obtain ⟨skip, port, orig, nl, mnp, dup, ⟨flagOn, gerr⟩, sf, dsp, osp, wt, ht, hs, lc⟩ := env
  obtain ⟨h1, h2, h3, h4⟩ := h
  simp only at h1 h2 h3 h4
  subst h1 h2 h3 h4
  simp [listenBody]

/-- When a step before `net.Listen` fails, the body does not call `net.Listen`
and returns a nil listener with an error that is not nil. -/
theorem listenBody_of_step_failed (env : Env) (h : ¬ stepsSucceed env) :
    Event.netListen ∉ (listenBody env).1 ∧
      ∃ err : GoError, (listenBody env).2 = (none, some err) := by
  obtain ⟨skip, port, orig, nl, mnp, dup, ⟨flagOn, gerr⟩, sf, dsp, osp, wt, ht, hs, lc⟩ := env
  cases dup <;> cases flagOn <;> cases gerr <;> cases sf <;> cases dsp <;>
    simp [listenBody, stepsSucceed] at h ⊢

/-- C9, as the code has it: on the non-skip path `net.Listen` is called only
after, in this order, `GetProc`, a successful `Dup`, a `GetFlag` that reported
true, a successful `SetFlag` and a successful `SetProc` of the duplicate; if
any of these steps fails `net.Listen` is never called and, when the deferred
restore succeeds, `listen` returns a nil listener together with an error that
is not nil, while a failing restore terminates the process instead. -/
theorem listen_netListen_only_after_steps (env : Env) (h : env.skip = false) :
    (Event.netListen ∈ (listen env).trace →
      stepsSucceed env ∧
      ∃ rest : List Event,
        (listen env).trace =
          [Event.getProc, Event.dup, Event.getFlag, Event.setFlag,
            Event.setProc Receiver.duplicate, Event.netListen] ++ rest ∧
        Event.netListen ∉ rest) ∧
    (¬ stepsSucceed env →
      Event.netListen ∉ (listen env).trace ∧
      (env.origSetProc = none →
        ∃ err : GoError, (listen env).result = Exec.returned (none, some err)) ∧
      (env.origSetProc ≠ none → (listen env).result = Exec.exited)) := by
  have hfail : ¬ stepsSucceed env → Event.netListen ∉ (listen env).trace := by
    intro hs
    obtain ⟨hb, _⟩ := listenBody_of_step_failed env hs
    cases hr : env.origSetProc with
    | none => rw [(listen_noskip_restored env h hr).1]; simpa using hb
    | some err => rw [(listen_noskip_fatal env h err hr).1]; simpa using hb
  refine ⟨?_, ?_⟩
  · intro hm
    have hs : stepsSucceed env := by
      by_contra hn
      exact hfail hn hm
    refine ⟨hs, ?_⟩
    have hb := listenBody_of_stepsSucceed env hs
    cases hr : env.origSetProc with
    | none =>
      refine ⟨[Event.setProc Receiver.original], ?_, by simp⟩
      rw [(listen_noskip_restored env h hr).1, hb]
    | some err =>
      refine ⟨[Event.setProc Receiver.original, Event.logFatal], ?_, by simp⟩
      rw [(listen_noskip_fatal env h err hr).1, hb]
  · intro hs
    refine ⟨hfail hs, ?_, ?_⟩
    · intro hr
      obtain ⟨_, err, he⟩ := listenBody_of_step_failed env hs
      exact ⟨err, by rw [(listen_noskip_restored env h hr).2, he]⟩
    · intro hne
      obtain ⟨err, hr⟩ := Option.ne_none_iff_exists'.mp hne
      exact (listen_noskip_fatal env h err hr).2

/-- C9 at `envDupFails`: `Dup` fails, `net.Listen` is not called. -/
theorem listen_netListen_only_after_steps_witness :
    envDupFails.skip = false ∧ ¬ stepsSucceed envDupFails ∧
    Event.netListen ∉ (listen envDupFails).trace :=
  ⟨rfl, by decide,
    ((listen_netListen_only_after_steps envDupFails rfl).2 (by decide)).1⟩

/-- C9 as stated fails: with the skip flag off, `Dup` failing and the deferred
restore failing too, `listen` does not return a nil listener with an error; it
does not return at all, the process is terminated. -/
theorem listen_failed_step_need_not_return :
    envDupAndRestoreFail.skip = false ∧ ¬ stepsSucceed envDupAndRestoreFail ∧
    (listen envDupAndRestoreFail).result = Exec.exited ∧
    (listen envDupAndRestoreFail).trace =
      [Event.getProc, Event.dup, Event.setProc Receiver.original, Event.logFatal] ∧
    ¬ ∃ err : GoError,
        (listen envDupAndRestoreFail).result = Exec.returned (none, some err) := by
  refine ⟨rfl, by decide, rfl, rfl, ?_⟩
  rintro ⟨err, he⟩
  have hx : (listen envDupAndRestoreFail).result = Exec.exited := rfl
  rw [hx] at he
  cases he

/-- The body when `GetFlag` answers false together with an error: neither
`SetFlag`, nor the duplicate's `SetProc`, nor `net.Listen` is called, and the
body returns a nil listener with an error, the error of `GetFlag` when `Dup`
succeeded. -/
theorem listenBody_of_flag_off_error (env : Env) (gerr : GoError)
    (hg : env.getFlag = (false, some gerr)) :
    Event.setFlag ∉ (listenBody env).1 ∧
    Event.setProc Receiver.duplicate ∉ (listenBody env).1 ∧
    Event.netListen ∉ (listenBody env).1 ∧
    (∃ err : GoError, (listenBody env).2 = (none, some err)) ∧
    (env.dup = none → (listenBody env).2 = (none, some gerr)) := by
  obtain ⟨skip, port, orig, nl, mnp, dup, gf, sf, dsp, osp, wt, ht, hs, lc⟩ := env
  simp only at hg
  subst hg
  cases dup <;> simp [listenBody]

/-- C10, as the code has it: whenever `GetFlag` reports the flag off together
with an error that is not nil, `listen` calls neither `SetFlag`, nor the
duplicate's `SetProc`, nor `net.Listen`; when the deferred restore succeeds it
returns a nil listener with an error that is not nil (the error of `GetFlag`
when `Dup` succeeded), and when the restore fails the process is terminated. -/
theorem listen_flag_off_error (env : Env) (gerr : GoError) (h : env.skip = false)
    (hg : env.getFlag = (false, some gerr)) :
    Event.setFlag ∉ (listen env).trace ∧
    Event.setProc Receiver.duplicate ∉ (listen env).trace ∧
    Event.netListen ∉ (listen env).trace ∧
    (env.origSetProc = none →
      (∃ err : GoError, (listen env).result = Exec.returned (none, some err)) ∧
      (env.dup = none → (listen env).result = Exec.returned (none, some gerr))) ∧
    (env.origSetProc ≠ none → (listen env).result = Exec.exited) := by
  obtain ⟨h1, h2, h3, ⟨err, h4⟩, h5⟩ := listenBody_of_flag_off_error env gerr hg
  cases hr : env.origSetProc with
  | none =>
    obtain ⟨ht, hres⟩ := listen_noskip_restored env h hr
    refine ⟨?_, ?_, ?_, ?_, ?_⟩
    · rw [ht]; simpa using h1
    · rw [ht]; simpa using h2
    · rw [ht]; simpa using h3
    · intro _
      exact ⟨⟨err, by rw [hres, h4]⟩, fun hd => by rw [hres, h5 hd]⟩
    · intro hne; exact absurd rfl hne
  | some rerr =>
    obtain ⟨ht, hres⟩ := listen_noskip_fatal env h rerr hr
    refine ⟨?_, ?_, ?_, ?_, ?_⟩
    · rw [ht]; simpa using h1
    · rw [ht]; simpa using h2
    · rw [ht]; simpa using h3
    · intro hn; cases hn
    · intro _; exact hres

/-- C10 at `envFlagOffWithError`: `GetFlag` answers false with an error and
`net.Listen` is not called. -/
theorem listen_flag_off_error_witness :
    envFlagOffWithError.skip = false ∧
    envFlagOffWithError.getFlag = (false, some "bad capability set") ∧
    Event.netListen ∉ (listen envFlagOffWithError).trace :=
  ⟨rfl, rfl,
    (listen_flag_off_error envFlagOffWithError "bad capability set" rfl rfl).2.2.1⟩

/-- C10 as stated fails twice. When `GetFlag` answers true together with an
error, the error is not looked at: `listen` goes on to call `SetFlag`, the
duplicate's `SetProc` and `net.Listen` and returns the listener with a nil
error. When `GetFlag` answers false with an error and the deferred restore
fails, `listen` returns nothing, the process is terminated. -/
theorem listen_flag_error_not_always_returned :
    (envFlagOnWithError.skip = false ∧ envFlagOnWithError.dup = none ∧
      envFlagOnWithError.getFlag.2 ≠ none ∧
      (listen envFlagOnWithError).trace =
        [Event.getProc, Event.dup, Event.getFlag, Event.setFlag,
          Event.setProc Receiver.duplicate, Event.netListen,
          Event.setProc Receiver.original] ∧
      (listen envFlagOnWithError).result = Exec.returned (some { fd := 3 }, none)) ∧
    (envFlagOffRestoreFails.skip = false ∧ envFlagOffRestoreFails.dup = none ∧
      envFlagOffRestoreFails.getFlag.2 ≠ none ∧
      (listen envFlagOffRestoreFails).trace =
        [Event.getProc, Event.dup, Event.getFlag, Event.setProc Receiver.original,
          Event.logFatal] ∧
      (listen envFlagOffRestoreFails).result = Exec.exited) := by
  refine ⟨⟨rfl, rfl, by decide, rfl, rfl⟩, ⟨rfl, rfl, by decide, rfl, rfl⟩⟩

/-- A set with a permitted bit is not empty. -/
theorem CapSet.isEmpty_of_getPermitted (c : CapSet) (bit : Nat)
    (h : c.getPermitted bit = true) : c.isEmpty = false := by
  have hp : c.permitted ≠ 0 := by
    intro h0
    simp [CapSet.getPermitted, h0] at h
  simp [CapSet.isEmpty, hp]

/-- A set whose effective bit has just been raised is not empty. -/
theorem CapSet.isEmpty_raiseEffective (c : CapSet) (bit : Nat) :
    (c.raiseEffective bit).isEmpty = false := by
  have hp : c.effective ||| 1 <<< bit ≠ 0 := by
    intro h0
    have ht : (c.effective ||| 1 <<< bit).testBit bit = true := by
      simp [Nat.testBit_or, Nat.testBit_shiftLeft]
    rw [h0] at ht
    simp at ht
  simp [CapSet.isEmpty, CapSet.raiseEffective, hp]

/-- C7 at the set-up of the package comment (`./web --port=80`, skip flag off,
`cap_setpcap` and `cap_net_bind_service` permitted, every call succeeding):
`main` binds the listener, re-applies the original set, whose permitted bits
are still there, and reaches `http.Serve`; no call of the run drops all
capabilities, `cap.ModeNoPriv.Set` is never called. -/
theorem main_noskip_serves_without_drop :
    envBindLowPort.skip = false ∧
    envBindLowPort.getFlag.1 = envBindLowPort.original.getPermitted NET_BIND_SERVICE ∧
    (main envBindLowPort).trace =
      [Event.getProc, Event.dup, Event.getFlag, Event.setFlag,
        Event.setProc Receiver.duplicate, Event.netListen,
        Event.setProc Receiver.original, Event.httpServe, Event.logFatal] ∧
    Event.modeNoPrivSet ∉ (main envBindLowPort).trace ∧
    (envBindLowPort.committed Receiver.original).isEmpty = false ∧
    (envBindLowPort.committed Receiver.duplicate).isEmpty = false ∧
    ∀ e ∈ (main envBindLowPort).trace, dropsAllCapabilities envBindLowPort e = false := by
  have ht : (main envBindLowPort).trace =
      [Event.getProc, Event.dup, Event.getFlag, Event.setFlag,
        Event.setProc Receiver.duplicate, Event.netListen,
        Event.setProc Receiver.original, Event.httpServe, Event.logFatal] := rfl
  refine ⟨rfl, by decide, ht, ?_, by decide, by decide, ?_⟩
  · rw [ht]; decide
  · rw [ht]; decide

/-- On the skip path `main` reaches `http.Serve` only after `net.Listen` and a
successful `cap.ModeNoPriv.Set`, in this order. -/
theorem main_skip_drops_before_serving (env : Env) (h : env.skip = true)
    (hs : Event.httpServe ∈ (main env).trace) :
    env.modeNoPrivSet = none ∧
    dropsAllCapabilities env Event.modeNoPrivSet = true ∧
    ∃ rest : List Event,
      (main env).trace = [Event.netListen, Event.modeNoPrivSet, Event.httpServe] ++ rest := by
  obtain ⟨skip, port, orig, ⟨lis, lerr⟩, mnp, dup, gf, sf, dsp, osp, wt, ht, hsv, lc⟩ := env
  simp only at h
  subst h
  by_cases hp : port = 0
  · simp [main, hp] at hs
  · cases lerr <;> cases mnp <;> cases hsv <;> cases lis <;> cases lc <;>
      simp [main, listen, hp, dropsAllCapabilities] at hs ⊢

/-- On the non-skip path, whenever the answer of `GetFlag` is the permitted bit
of the original set, no run of `main` that reaches `http.Serve` contains a call
that drops all capabilities. -/
theorem main_noskip_never_drops (env : Env) (h : env.skip = false)
    (hg : env.getFlag.1 = env.original.getPermitted NET_BIND_SERVICE)
    (hs : Event.httpServe ∈ (main env).trace) :
    ∀ e ∈ (main env).trace, dropsAllCapabilities env e = false := by
  have hdup : (env.committed Receiver.duplicate).isEmpty = false :=
    CapSet.isEmpty_raiseEffective _ _
  obtain ⟨skip, port, orig, ⟨lis, lerr⟩, mnp, dup, ⟨flagOn, gerr⟩, sf, dsp, osp, wt, ht,
    hsv, lc⟩ := env
  simp only at h hg
  subst h
  by_cases hp : port = 0
  · simp [main, hp] at hs
  · cases flagOn with
    | false =>
      cases dup <;> cases gerr <;> cases osp <;>
        simp [main, listen, listenBody, restore, hp] at hs
    | true =>
      have horig : orig.isEmpty = false :=
        CapSet.isEmpty_of_getPermitted orig NET_BIND_SERVICE hg.symm
      simp only [Env.committed] at hdup
      cases dup <;> cases sf <;> cases dsp <;> cases osp <;> cases lerr <;>
        cases hsv <;> cases lis <;> cases lc <;>
        simp [main, listen, listenBody, restore, hp, dropsAllCapabilities, Env.committed,
          Env.setProcResult, horig, hdup] at hs ⊢

/-- The skip path at a concrete run: `./web --port=8080 --skip`. -/
theorem main_skip_drops_before_serving_example :
    (main { envBindLowPort with skip := true, port := 8080 }).trace =
      [Event.netListen, Event.modeNoPrivSet, Event.httpServe, Event.logFatal] := rfl

end Web

end Libcap
